import Mathlib

/-
Verification of the asynchronous executor core: a shallow embedding of
`src/future_combinators.c`, `src/executor.c` and `src/mio.c` together with
theorems settling the spec's claims about them.

Modelling conventions:
* C pointers to futures are represented as natural-number identifiers;
  the opaque `void*` slots `arg` / `ok` are represented as `Nat` (NULL = 0).
* A child future (a `Future*` behind its `progress` vtable entry) is an
  arbitrary deterministic state machine observed through its fields: its
  nth progress call, invoked while its `arg` field holds `a`, yields a
  `FutureState` together with the values of its `ok` and `errcode` fields
  after the call.  This is the `Child` structure below.
* Machine integers are modelled as `Nat` / `Int`; the C code performs no
  arithmetic where overflow is reachable (queue indices stay below the
  queue capacity, counters stay tiny).
* The blocking `epoll_wait` of `mio_poll` is modelled by an oracle giving
  the batch of cookie futures delivered by the kernel at each poll; the
  contract that the call blocks until at least one event fires becomes the
  hypothesis that the oracle never returns an empty batch.
-/

namespace AsyncExec

/-- The three outcomes of a `progress` call (enum `FutureState` in `future.h`). -/
inductive FutureState
  | pending
  | completed
  | failure
deriving DecidableEq

/-- Modelled from the spec: `FUTURE_SUCCESS = 0` (§6 Error codes); the
numeric error constants themselves live in headers not present in the
sources, the spec fixing only that they are numeric, with success `0` and
all failure codes non-overlapping and distinct from `0`. -/
def FUTURE_SUCCESS : Nat := 0

/-- Modelled from the spec: distinct nonzero error code for Then when fut1 fails. -/
def THEN_FUTURE_ERR_FUT1_FAILED : Nat := 1

/-- Modelled from the spec: distinct nonzero error code for Then when fut2 fails. -/
def THEN_FUTURE_ERR_FUT2_FAILED : Nat := 2

/-- Modelled from the spec: distinct nonzero error code for Join when only fut1 fails. -/
def JOIN_FUTURE_ERR_FUT1_FAILED : Nat := 3

/-- Modelled from the spec: distinct nonzero error code for Join when only fut2 fails. -/
def JOIN_FUTURE_ERR_FUT2_FAILED : Nat := 4

/-- Modelled from the spec: distinct nonzero error code for Join when both children fail. -/
def JOIN_FUTURE_ERR_BOTH_FUTS_FAILED : Nat := 5

/-- A child future as seen by a combinator: `beh n a` is the outcome of its
nth progress call when its `arg` field holds `a` — the returned
`FutureState` and the values of its `ok` and `errcode` fields after the
call.  `calls` counts progress calls made so far; `arg`, `ok`, `errcode`
mirror the base `Future` fields the combinator code reads and writes. -/
structure Child where
  beh : Nat → Nat → FutureState × Nat × Nat
  calls : Nat
  arg : Nat
  ok : Nat
  errcode : Nat

/-- One call `self->progress(self, mio, waker)` on a child future: consult
its behaviour at the current call count and `arg`, bump the count and
update the observable `ok` / `errcode` fields. -/
def progressChild (c : Child) : Child × FutureState :=
  let r := c.beh c.calls c.arg
  ({ c with calls := c.calls + 1, ok := r.2.1, errcode := r.2.2 }, r.1)

/-- `ThenFuture` (struct in `future_combinators.h`): two child references,
the `fut1_completed` flag, and the base-future fields the combinator code
touches (`is_active`, `arg`, `ok`, `errcode`). -/
structure ThenFuture where
  fut1 : Child
  fut2 : Child
  fut1_completed : Bool
  is_active : Bool
  arg : Nat
  ok : Nat
  errcode : Nat

/-- Second half of `then_progress` (`future_combinators.c` lines 31-41):
progress `fut2` and classify its outcome. -/
def then_progress2 (self : ThenFuture) : ThenFuture × FutureState :=
  let r2 := progressChild self.fut2
  let s2 := { self with fut2 := r2.1 }
  if r2.2 = .pending then (s2, .pending)
  else if r2.2 = .failure then
    ({ s2 with errcode := THEN_FUTURE_ERR_FUT2_FAILED }, .failure)
  else ({ s2 with ok := r2.1.ok }, .completed)

/-- `then_progress` (`future_combinators.c` lines 13-42). -/
def then_progress (self : ThenFuture) : ThenFuture × FutureState :=
  if self.fut1_completed then then_progress2 self
  else
    let r1 := progressChild self.fut1
    let s1 := { self with fut1 := r1.1 }
    if r1.2 = .pending then (s1, .pending)
    else if r1.2 = .failure then
      ({ s1 with errcode := THEN_FUTURE_ERR_FUT1_FAILED }, .failure)
    else
      then_progress2
        { s1 with fut1_completed := true, fut2 := { s1.fut2 with arg := r1.1.ok } }

/-- `future_then` (`future_combinators.c` lines 44-55). -/
def future_then (fut1 fut2 : Child) : ThenFuture :=
  { fut1 := fut1, fut2 := fut2, fut1_completed := false,
    is_active := false, arg := 0, ok := 0, errcode := FUTURE_SUCCESS }

/-- State of the `ThenFuture` after `n` progress calls. -/
def thenStates (s : ThenFuture) : Nat → ThenFuture
  | 0 => s
  | n + 1 => (then_progress (thenStates s n)).1

/-- Result of the `(n+1)`th progress call on a `ThenFuture`. -/
def thenRes (s : ThenFuture) (n : Nat) : FutureState :=
  (then_progress (thenStates s n)).2

/-- One child's cached result record (`result.fut1` / `result.fut2` in `JoinFuture`). -/
structure FutResult where
  ok : Nat
  errcode : Nat
deriving DecidableEq

/-- `JoinFuture`: two child references, per-child status (the C code reuses
`FutureState` for `fut1_completed` / `fut2_completed`), the cached result
records, and the touched base fields. -/
structure JoinFuture where
  fut1 : Child
  fut2 : Child
  fut1_completed : FutureState
  fut2_completed : FutureState
  result1 : FutResult
  result2 : FutResult
  is_active : Bool
  arg : Nat
  ok : Nat
  errcode : Nat

/-- First if-block of `join_progress` (`future_combinators.c` lines 66-80):
progress `fut1` if still pending and cache its terminal snapshot. -/
def join_step1 (self : JoinFuture) : JoinFuture :=
  if self.fut1_completed = .pending then
    let r := progressChild self.fut1
    if r.2 = .completed then
      { self with
        fut1 := r.1, fut1_completed := .completed,
        result1 := { ok := r.1.ok, errcode := FUTURE_SUCCESS } }
    else if r.2 = .failure then
      { self with
        fut1 := r.1, fut1_completed := .failure,
        result1 := { ok := 0, errcode := r.1.errcode } }
    else { self with fut1 := r.1 }
  else self

/-- Second if-block of `join_progress` (`future_combinators.c` lines 82-96). -/
def join_step2 (self : JoinFuture) : JoinFuture :=
  if self.fut2_completed = .pending then
    let r := progressChild self.fut2
    if r.2 = .completed then
      { self with
        fut2 := r.1, fut2_completed := .completed,
        result2 := { ok := r.1.ok, errcode := FUTURE_SUCCESS } }
    else if r.2 = .failure then
      { self with
        fut2 := r.1, fut2_completed := .failure,
        result2 := { ok := 0, errcode := r.1.errcode } }
    else { self with fut2 := r.1 }
  else self

/-- Classification tail of `join_progress` (`future_combinators.c` lines
98-118): pending while a child is pending, else failure triage, else
success with fut1's cached ok. -/
def joinClassify (s2 : JoinFuture) : JoinFuture × FutureState :=
  if s2.fut1_completed = .pending ∨ s2.fut2_completed = .pending then (s2, .pending)
  else if s2.fut1_completed = .failure ∧ s2.fut2_completed = .failure then
    ({ s2 with errcode := JOIN_FUTURE_ERR_BOTH_FUTS_FAILED }, .failure)
  else if s2.fut1_completed = .failure then
    ({ s2 with errcode := JOIN_FUTURE_ERR_FUT1_FAILED }, .failure)
  else if s2.fut2_completed = .failure then
    ({ s2 with errcode := JOIN_FUTURE_ERR_FUT2_FAILED }, .failure)
  else ({ s2 with ok := s2.result1.ok }, .completed)

/-- `join_progress` (`future_combinators.c` lines 62-119): per-child steps
followed by classification of the pair of statuses. -/
def join_progress (self : JoinFuture) : JoinFuture × FutureState :=
  joinClassify (join_step2 (join_step1 self))

/-- `future_join` (`future_combinators.c` lines 121-136).  The C code
leaves `base.is_active` and `base.arg` uninitialized; they are taken as
parameters here. -/
def future_join (fut1 fut2 : Child) (active0 : Bool) (arg0 : Nat) : JoinFuture :=
  { fut1 := fut1, fut2 := fut2,
    fut1_completed := .pending, fut2_completed := .pending,
    result1 := { ok := 0, errcode := FUTURE_SUCCESS },
    result2 := { ok := 0, errcode := FUTURE_SUCCESS },
    is_active := active0, arg := arg0, ok := 0, errcode := FUTURE_SUCCESS }

/-- The `which_completed` tag of a `SelectFuture` (enum `SelectWhich`,
values SELECT_COMPLETED_NONE / _FUT1 / _FUT2, SELECT_FAILED_FUT1 / _FUT2 / _BOTH). -/
inductive SelectWhich
  | snone
  | completedFut1
  | completedFut2
  | failedFut1
  | failedFut2
  | failedBoth
deriving DecidableEq

/-- `SelectFuture`: two child references, the tag, and the touched base fields. -/
structure SelectFuture where
  fut1 : Child
  fut2 : Child
  which_completed : SelectWhich
  is_active : Bool
  arg : Nat
  ok : Nat
  errcode : Nat

/-- First half of `select_progress` (`future_combinators.c` lines 145-174):
the three early returns on an already-terminal tag, then the fut1 step.
`some st` means the call returned `st` there; `none` means it fell through
to the fut2 step. -/
def select_step1 (self : SelectFuture) : SelectFuture × Option FutureState :=
  if self.which_completed = .completedFut1 then
    ({ self with ok := self.fut1.ok }, some .completed)
  else if self.which_completed = .completedFut2 then
    ({ self with ok := self.fut2.ok }, some .completed)
  else if self.which_completed = .failedBoth then
    ({ self with errcode := self.fut1.errcode }, some .failure)
  else if self.which_completed = .snone ∨ self.which_completed = .failedFut2 then
    let r1 := progressChild self.fut1
    if r1.2 = .completed then
      ({ self with fut1 := r1.1, which_completed := .completedFut1, ok := r1.1.ok },
        some .completed)
    else if r1.2 = .failure then
      ({ self with
         fut1 := r1.1,
         which_completed :=
           if self.which_completed = .failedFut2 then .failedBoth else .failedFut1 },
        none)
    else ({ self with fut1 := r1.1 }, none)
  else (self, none)

/-- Second half of `select_progress` (`future_combinators.c` lines 176-192):
the fut2 step, falling through to `return FUTURE_PENDING`. -/
def select_step2 (t : SelectFuture) : SelectFuture × FutureState :=
  if t.which_completed = .snone ∨ t.which_completed = .failedFut1 then
    let r2 := progressChild t.fut2
    if r2.2 = .completed then
      ({ t with fut2 := r2.1, which_completed := .completedFut2, ok := r2.1.ok },
        .completed)
    else if r2.2 = .failure then
      ({ t with
         fut2 := r2.1,
         which_completed :=
           if t.which_completed = .failedFut1 then .failedBoth else .failedFut2 },
        .pending)
    else ({ t with fut2 := r2.1 }, .pending)
  else (t, .pending)

/-- `select_progress` (`future_combinators.c` lines 142-193). -/
def select_progress (self : SelectFuture) : SelectFuture × FutureState :=
  match select_step1 self with
  | (t, some st) => (t, st)
  | (t, none) => select_step2 t

/-- `future_select` (`future_combinators.c` lines 195-204).  The C code
initializes only `fut1`, `fut2`, `which_completed` and `base.progress`;
the remaining base fields (`is_active`, `arg`, `ok`, `errcode`) are left
uninitialized and are taken here as parameters standing for the
indeterminate values they hold. -/
def future_select (fut1 fut2 : Child) (active0 : Bool) (arg0 ok0 err0 : Nat) :
    SelectFuture :=
  { fut1 := fut1, fut2 := fut2, which_completed := .snone,
    is_active := active0, arg := arg0, ok := ok0, errcode := err0 }

/-- State of a `SelectFuture` after `n` progress calls. -/
def selectStates (s : SelectFuture) : Nat → SelectFuture
  | 0 => s
  | n + 1 => (select_progress (selectStates s n)).1

/-- The ready queue `FutQue` (`executor.c` lines 19-27): a circular buffer
of future references (here: future identifiers).  `futs` models the
backing array; only indices below `max_size` are ever read.  `back` is a C
`int` initialized to `-1`, hence `Int`. -/
structure FutQue where
  futs : Nat → Nat
  size : Nat
  max_size : Nat
  front : Nat
  back : Int

/-- `futque_create` (`executor.c` lines 29-37); the freshly malloc'd array
contents are irrelevant and modelled as all-zero. -/
def futque_create (m : Nat) : FutQue :=
  { futs := fun _ => 0, size := 0, max_size := m, front := 0, back := -1 }

/-- `isEmpty` (`executor.c` lines 39-41). -/
def isEmpty (que : FutQue) : Bool :=
  que.size == 0

/-- `push` (`executor.c` lines 43-50): silent no-op when full, otherwise
advance `back` circularly and store the future there. -/
def push (que : FutQue) (fut : Nat) : FutQue :=
  if que.size = que.max_size then que
  else
    let b : Int := (que.back + 1) % (que.max_size : Int)
    { que with
      back := b,
      futs := fun i => if i = b.toNat then fut else que.futs i,
      size := que.size + 1 }

/-- `pop` (`executor.c` lines 52-60): `none` models the NULL return on an
empty queue; otherwise yields the front element and the updated queue. -/
def pop (que : FutQue) : Option (Nat × FutQue) :=
  if isEmpty que then none
  else some (que.futs que.front,
    { que with front := (que.front + 1) % que.max_size, size := que.size - 1 })

/-- The abstract contents of the queue, front first. -/
def FutQue.toList (que : FutQue) : List Nat :=
  (List.range que.size).map (fun i => que.futs ((que.front + i) % que.max_size))

/-- Representation invariant of the circular buffer, established by
`futque_create` and preserved by `push` and `pop`. -/
def FutQue.Inv (que : FutQue) : Prop :=
  0 < que.max_size ∧ que.size ≤ que.max_size ∧ que.front < que.max_size ∧
    (que.back + 1) % (que.max_size : Int) = ((que.front + que.size) % que.max_size : Nat)

/-- An operation on the ready queue: a push (spawn / wake) or a pop. -/
inductive QOp
  | enq (fut : Nat)
  | deq

/-- Apply one queue operation; a pop on the empty queue (NULL result)
leaves the queue unchanged. -/
def applyOp (que : FutQue) : QOp → FutQue
  | .enq fut => push que fut
  | .deq =>
    match pop que with
    | none => que
    | some r => r.2

/-- The queue reached from `futque_create m` by a sequence of operations. -/
def runOps (m : Nat) (ops : List QOp) : FutQue :=
  ops.foldl applyOp (futque_create m)

/-- Reference model of the queue as a plain list with drop-on-full push. -/
def applyOpL (m : Nat) (l : List Nat) : QOp → List Nat
  | .enq fut => if l.length = m then l else l ++ [fut]
  | .deq => l.tail

/-- The reference list-queue reached by the same operation sequence. -/
def runOpsL (m : Nat) (ops : List QOp) : List Nat :=
  ops.foldl (applyOpL m) []

/-- Guarded operation sequences: every push happens only while the pushed
future is absent from the queue (the caller contract of `spawn` / `wake`). -/
def GuardedFrom (que : FutQue) : List QOp → Prop
  | [] => True
  | .enq fut :: rest => fut ∉ que.toList ∧ GuardedFrom (push que fut) rest
  | .deq :: rest => GuardedFrom (applyOp que .deq) rest

/-- The reactor state the C `struct Mio` keeps besides the kernel handle:
the registration counter (a C `int`). -/
structure Mio where
  registered_count : Int
deriving DecidableEq

/-- `mio_register` (`mio.c` lines 49-65).  `fd`, `events` and `wakerFut`
mirror the C parameters; `kernelOk` is the outcome of the external
`epoll_ctl(EPOLL_CTL_ADD)` call.  Returns the new state and the `int`
return value. -/
def mio_register (mio : Mio) (fd : Int) (events : Nat) (wakerFut : Nat)
    (kernelOk : Bool) : Mio × Int :=
  if kernelOk then ({ mio with registered_count := mio.registered_count + 1 }, 0)
  else (mio, -1)

/-- `mio_unregister` (`mio.c` lines 67-79). -/
def mio_unregister (mio : Mio) (fd : Int) (kernelOk : Bool) : Mio × Int :=
  if kernelOk then ({ mio with registered_count := mio.registered_count - 1 }, 0)
  else (mio, -1)

/-- The test `mio_poll` performs first (`mio.c` line 89): the poll blocks
in `epoll_wait` exactly when the registration count is nonzero. -/
def mio_poll_blocks (mio : Mio) : Bool :=
  mio.registered_count != 0

/-- `MAX_EVENTS` (`mio.c` line 14): batch bound of one `epoll_wait` call. -/
def MAX_EVENTS : Nat := 64

/-- Executor state during `executor_run`: the ready queue and reactor of
`struct Executor`, plus the observable footprint of the driven futures —
per-future progress-call counts, the `is_active` flags, and the number of
blocking polls performed so far (used to index the event oracle). -/
structure ExecSt where
  que : FutQue
  mio : Mio
  counts : Nat → Nat
  is_active : Nat → Bool
  polls : Nat

/-- `executor_spawn` (`executor.c` lines 93-98): mark active and push. -/
def executor_spawn (s : ExecSt) (fut : Nat) : ExecSt :=
  { s with
    is_active := fun g => if g = fut then true else s.is_active g,
    que := push s.que fut }

/-- `waker_wake` (`executor.c` lines 84-89): wake = spawn of the waker's future. -/
def waker_wake (s : ExecSt) (fut : Nat) : ExecSt :=
  executor_spawn s fut

/-- One body iteration of the inner drain loop (`executor.c` lines
108-114) after `fut` has been popped leaving queue `que1`: call the
future's `progress` — whose outcome and net effect on the registration
counter the behaviour `beh` scripts per call — and clear `is_active` on a
terminal result. -/
def execProgress (beh : Nat → Nat → FutureState × Int) (s : ExecSt) (fut : Nat)
    (que1 : FutQue) : ExecSt :=
  let r := beh fut (s.counts fut)
  { que := que1,
    mio := { registered_count := s.mio.registered_count + r.2 },
    counts := fun g => if g = fut then s.counts g + 1 else s.counts g,
    is_active := fun g =>
      if g = fut then (if r.1 = .pending then s.is_active g else false)
      else s.is_active g,
    polls := s.polls }

/-- The inner drain loop, with fuel; `drain` below supplies fuel equal to
the queue size, which is exact since each iteration pops one element and
a scripted `progress` call does not touch the queue. -/
def drainFuel (beh : Nat → Nat → FutureState × Int) : Nat → ExecSt → ExecSt
  | 0, s => s
  | n + 1, s =>
    match pop s.que with
    | none => s
    | some r => drainFuel beh n (execProgress beh s r.1 r.2)

/-- The inner `while(!isEmpty)` drain of `executor_run`. -/
def drain (beh : Nat → Nat → FutureState × Int) (s : ExecSt) : ExecSt :=
  drainFuel beh s.que.size s

/-- `mio_poll` (`mio.c` lines 85-107) as seen from the executor state:
immediate return when nothing is registered; otherwise the kernel delivers
the batch `oracle s.polls` (at most `MAX_EVENTS` events, nonempty because
`epoll_wait` blocks until an event fires) and each event's cookie future
is woken in order. -/
def mio_poll (oracle : Nat → List Nat) (s : ExecSt) : ExecSt :=
  if s.mio.registered_count = 0 then s
  else
    let t := ((oracle s.polls).take MAX_EVENTS).foldl waker_wake s
    { t with polls := s.polls + 1 }

/-- `executor_run` (`executor.c` lines 104-118), with fuel bounding the
number of outer loop iterations: `some` is a normal return of `run`,
`none` means the fuel ran out before the loop exited. -/
def runFuel (beh : Nat → Nat → FutureState × Int) (oracle : Nat → List Nat) :
    Nat → ExecSt → Option ExecSt
  | 0, _ => none
  | n + 1, s =>
    if isEmpty s.que then some s
    else runFuel beh oracle n (mio_poll oracle (drain beh s))

/-! ### Ready-queue lemmas: the circular buffer refines a list queue -/

theorem toList_length (que : FutQue) : que.toList.length = que.size := by
  simp [FutQue.toList]

theorem futque_create_toList (m : Nat) : (futque_create m).toList = [] := by
  simp [FutQue.toList, futque_create]

theorem futque_create_inv (m : Nat) (hm : 0 < m) : (futque_create m).Inv := by
  refine ⟨hm, Nat.zero_le m, hm, ?_⟩
  simp [futque_create]

theorem push_full (que : FutQue) (fut : Nat) (h : que.size = que.max_size) :
    push que fut = que := by
  simp [push, h]

theorem pop_of_empty (que : FutQue) (h : que.size = 0) : pop que = none := by
  simp [pop, isEmpty, h]

theorem push_size_le (que : FutQue) (fut : Nat) :
    que.size ≤ (push que fut).size := by
  unfold push
  split
  · exact Nat.le_refl _
  · exact Nat.le_succ _

theorem push_max_size (que : FutQue) (fut : Nat) :
    (push que fut).max_size = que.max_size := by
  unfold push
  split <;> rfl

theorem push_toList (que : FutQue) (fut : Nat) (hinv : que.Inv)
    (h : que.size ≠ que.max_size) :
    (push que fut).toList = que.toList ++ [fut] ∧ (push que fut).Inv := by
  obtain ⟨hm, hle, hf, hb⟩ := hinv
  have hlt : que.size < que.max_size := Nat.lt_of_le_of_ne hle h
  have hbnat : ((que.back + 1) % (que.max_size : Int)).toNat
      = (que.front + que.size) % que.max_size := by
    rw [hb]; exact Int.toNat_natCast _
  have hpush : push que fut =
      { que with
        back := (que.back + 1) % (que.max_size : Int),
        futs := fun i =>
          if i = ((que.back + 1) % (que.max_size : Int)).toNat then fut
          else que.futs i,
        size := que.size + 1 } := by
    unfold push
    rw [if_neg h]
  constructor
  · rw [hpush]
    simp only [FutQue.toList, List.range_succ, List.map_append, List.map_cons,
      List.map_nil]
    congr 1
    · apply List.map_congr_left
      intro i hi
      rw [List.mem_range] at hi
      have hne : (que.front + i) % que.max_size ≠
          ((que.back + 1) % (que.max_size : Int)).toNat := by
        rw [hbnat]
        intro hcontra
        have heq : i % que.max_size = que.size % que.max_size :=
          Nat.ModEq.add_left_cancel' que.front hcontra
        rw [Nat.mod_eq_of_lt (Nat.lt_trans hi hlt), Nat.mod_eq_of_lt hlt] at heq
        exact Nat.ne_of_lt hi heq
      simp [hne]
    · rw [hbnat]
      simp
  · rw [hpush]
    refine ⟨hm, Nat.succ_le_of_lt hlt, hf, ?_⟩
    simp only
    rw [hb]
    norm_cast
    rw [Nat.mod_add_mod]
    congr 1

theorem pop_some (que : FutQue) (hinv : que.Inv) (h : que.size ≠ 0) :
    ∃ q', pop que = some (que.toList.headI, q') ∧
      q'.toList = que.toList.tail ∧ q'.Inv ∧ q'.max_size = que.max_size ∧
      q'.size = que.size - 1 := by
  obtain ⟨hm, hle, hf, hb⟩ := hinv
  obtain ⟨k, hk⟩ : ∃ k, que.size = k + 1 :=
    ⟨que.size - 1, (Nat.succ_pred_eq_of_pos (Nat.pos_of_ne_zero h)).symm⟩
  refine ⟨{ que with front := (que.front + 1) % que.max_size, size := que.size - 1 },
    ?_, ?_, ?_, rfl, rfl⟩
  · have hhead : que.toList.headI = que.futs que.front := by
      simp only [FutQue.toList, hk, List.range_succ_eq_map, List.map_cons, List.headI]
      rw [Nat.add_zero, Nat.mod_eq_of_lt hf]
    unfold pop isEmpty
    rw [if_neg (by simp [h]), hhead]
  · simp only [FutQue.toList, hk, Nat.add_sub_cancel, List.range_succ_eq_map,
      List.map_cons, List.tail_cons, List.map_map]
    apply List.map_congr_left
    intro i _
    simp only [Function.comp]
    congr 1
    rw [Nat.mod_add_mod]
    congr 1
    omega
  · refine ⟨hm, by show que.size - 1 ≤ que.max_size; omega, Nat.mod_lt _ hm, ?_⟩
    simp only
    rw [hb]
    congr 1
    rw [Nat.mod_add_mod]
    congr 1
    omega

theorem applyOp_spec (m : Nat) (que : FutQue) (l : List Nat) (op : QOp)
    (hinv : que.Inv) (hl : que.toList = l) (hms : que.max_size = m) :
    (applyOp que op).Inv ∧ (applyOp que op).toList = applyOpL m l op ∧
      (applyOp que op).max_size = m := by
  cases op with
  | enq fut =>
    by_cases hfull : que.size = que.max_size
    · have : applyOp que (.enq fut) = que := push_full que fut hfull
      rw [this]
      have hlen : l.length = m := by
        rw [← hl, toList_length, hfull, hms]
      simp [applyOpL, hlen, hinv, hl, hms]
    · obtain ⟨h1, h2⟩ := push_toList que fut hinv hfull
      have hlen : l.length ≠ m := by
        rw [← hl, toList_length, ← hms]; exact hfull
      refine ⟨h2, ?_, by simp [applyOp, push_max_size, hms]⟩
      simp [applyOp, applyOpL, hlen, h1, hl]
  | deq =>
    by_cases hz : que.size = 0
    · have hnil : l = [] := by
        have := toList_length que
        rw [hl, hz] at this
        exact List.eq_nil_of_length_eq_zero this
      simp [applyOp, pop_of_empty que hz, applyOpL, hnil, hinv, hl, hms]
    · obtain ⟨q', hpop, htl, hinv', hms', _⟩ := pop_some que hinv hz
      simp only [applyOp, hpop, applyOpL]
      exact ⟨hinv', by rw [htl, hl], by rw [hms', hms]⟩

theorem runOps_spec (m : Nat) (hm : 0 < m) (ops : List QOp) :
    (runOps m ops).Inv ∧ (runOps m ops).toList = runOpsL m ops ∧
      (runOps m ops).max_size = m := by
  suffices h : ∀ (ops : List QOp) (que : FutQue) (l : List Nat),
      que.Inv → que.toList = l → que.max_size = m →
      (ops.foldl applyOp que).Inv ∧
        (ops.foldl applyOp que).toList = ops.foldl (applyOpL m) l ∧
        (ops.foldl applyOp que).max_size = m by
    exact h ops (futque_create m) [] (futque_create_inv m hm)
      (futque_create_toList m) rfl
  intro ops
  induction ops with
  | nil => intro que l h1 h2 h3; exact ⟨h1, h2, h3⟩
  | cons op rest ih =>
    intro que l h1 h2 h3
    obtain ⟨g1, g2, g3⟩ := applyOp_spec m que l op h1 h2 h3
    exact ih (applyOp que op) (applyOpL m l op) g1 g2 g3

/-- C8: for a ready queue created with positive capacity `C` and any
sequence of push/pop operations, the circular buffer refines the strict
FIFO list queue with drop-on-full push: its contents equal the reference
list, its length never exceeds `C`, pop on an empty queue returns NULL,
push on a queue holding `C` elements is a silent no-op, push with room
appends at the tail, and pop removes exactly the head. -/
theorem futque_fifo (C : Nat) (ops : List QOp) (fut : Nat) (hC : 0 < C) :
    (runOps C ops).toList = runOpsL C ops ∧
    (runOps C ops).size ≤ C ∧
    ((runOps C ops).size = 0 → pop (runOps C ops) = none) ∧
    ((runOps C ops).size = C → push (runOps C ops) fut = runOps C ops) ∧
    ((runOps C ops).size < C →
      (push (runOps C ops) fut).toList = (runOps C ops).toList ++ [fut]) ∧
    (∀ v q', pop (runOps C ops) = some (v, q') →
      v = (runOps C ops).toList.headI ∧ q'.toList = (runOps C ops).toList.tail) := by
  obtain ⟨hinv, hlist, hms⟩ := runOps_spec C hC ops
  have hsz := hinv.2.1
  rw [hms] at hsz
  refine ⟨hlist, hsz, ?_, ?_, ?_, ?_⟩
  · intro hz
    exact pop_of_empty _ hz
  · intro hfull
    exact push_full _ fut (by rw [hfull, hms])
  · intro hroom
    exact (push_toList _ fut hinv (by rw [hms]; exact Nat.ne_of_lt hroom)).1
  · intro v q' hpop
    have hz : (runOps C ops).size ≠ 0 := by
      intro hz
      rw [pop_of_empty _ hz] at hpop
      exact Option.noConfusion hpop
    obtain ⟨q'', hpop', htl, _, _, _⟩ := pop_some _ hinv hz
    rw [hpop'] at hpop
    obtain ⟨h1, h2⟩ := Prod.mk.injEq .. ▸ Option.some.injEq .. ▸ hpop
    exact ⟨h1.symm ▸ rfl, by rw [← h2]; exact htl⟩

/-- Witness for C8 at capacity 2 and the operation sequence
push 5, push 6, push 7, pop: the buffer contents equal the reference
list-queue contents. -/
theorem futque_fifo_witness :
    0 < 2 ∧ (runOps 2 [QOp.enq 5, QOp.enq 6, QOp.enq 7, QOp.deq]).toList
      = runOpsL 2 [QOp.enq 5, QOp.enq 6, QOp.enq 7, QOp.deq] :=
  ⟨by decide, (futque_fifo 2 [QOp.enq 5, QOp.enq 6, QOp.enq 7, QOp.deq] 9 (by decide)).1⟩

/-- C3 counterexample: nothing in `executor_spawn` or `waker_wake` checks
for duplicates, so spawning the same future twice into a fresh queue of
capacity 2 makes it occupy two slots simultaneously. -/
theorem spawn_twice_two_slots :
    (runOps 2 [QOp.enq 7, QOp.enq 7]).toList.count 7 = 2 := by decide

/-- C3 amended: if every push of a future happens only while that future
is absent from the ready queue (the caller contract of `spawn`, and the
discipline the waker is trusted — but not made — to follow), then at
every reachable state no future occupies more than one slot. -/
theorem queue_no_dup_of_guarded (C : Nat) (ops : List QOp) (hC : 0 < C)
    (hg : GuardedFrom (futque_create C) ops) (fut : Nat) :
    (runOps C ops).toList.count fut ≤ 1 := by
  suffices h : ∀ (ops : List QOp) (que : FutQue), que.Inv →
      (∀ g, que.toList.count g ≤ 1) → GuardedFrom que ops →
      ∀ g, (ops.foldl applyOp que).toList.count g ≤ 1 by
    exact h ops (futque_create C) (futque_create_inv C hC)
      (by intro g; rw [futque_create_toList]; simp) hg fut
  intro ops
  induction ops with
  | nil => intro que h1 h2 _ g; exact h2 g
  | cons op rest ih =>
    intro que h1 h2 hg g
    cases op with
    | enq f =>
      obtain ⟨habs, hg'⟩ := hg
      by_cases hfull : que.size = que.max_size
      · have heq : applyOp que (.enq f) = que := push_full que f hfull
        refine ih (applyOp que (.enq f)) ?_ ?_ ?_ g
        · rw [heq]; exact h1
        · rw [heq]; exact h2
        · exact hg'
      · obtain ⟨htl, hinv'⟩ := push_toList que f h1 hfull
        refine ih (applyOp que (.enq f)) hinv' ?_ hg' g
        intro g'
        show List.count g' (push que f).toList ≤ 1
        rw [htl, List.count_append]
        by_cases hgf : g' = f
        · subst hgf
          rw [List.count_eq_zero_of_not_mem habs]
          simp
        · have hz1 : List.count g' [f] = 0 :=
            List.count_eq_zero_of_not_mem (by simp [hgf])
          rw [hz1]
          simpa using h2 g'
    | deq =>
      have hg' : GuardedFrom (applyOp que .deq) rest := hg
      by_cases hz : que.size = 0
      · have heq : applyOp que .deq = que := by
          simp [applyOp, pop_of_empty que hz]
        refine ih _ ?_ ?_ hg' g <;> rw [heq]
        · exact h1
        · exact h2
      · obtain ⟨q', hpop, htl, hinv', _, _⟩ := pop_some que h1 hz
        have heq : applyOp que .deq = q' := by
          simp [applyOp, hpop]
        refine ih _ ?_ ?_ hg' g <;> rw [heq]
        · exact hinv'
        · intro g'
          rw [htl]
          exact Nat.le_trans (List.Sublist.count_le (List.tail_sublist _) g') (h2 g')

/-- Witness for C3's amended theorem: a guarded sequence of two distinct
pushes and a pop leaves future 1 in at most one slot. -/
theorem queue_no_dup_witness :
    0 < 2 ∧ (runOps 2 [QOp.enq 1, QOp.enq 2, QOp.deq]).toList.count 1 ≤ 1 :=
  ⟨by decide,
    queue_no_dup_of_guarded 2 [QOp.enq 1, QOp.enq 2, QOp.deq] (by decide)
      ⟨by decide, by decide, trivial⟩ 1⟩

/-! ### Join combinator lemmas -/

theorem progressChild_calls (c : Child) : (progressChild c).1.calls = c.calls + 1 := rfl

theorem join_step1_skip (self : JoinFuture) (h : ¬ self.fut1_completed = .pending) :
    join_step1 self = self := by
  unfold join_step1
  rw [if_neg h]

theorem join_step1_completed (self : JoinFuture) (h : self.fut1_completed = .pending)
    (hc : (progressChild self.fut1).2 = .completed) :
    join_step1 self =
      { self with
        fut1 := (progressChild self.fut1).1, fut1_completed := .completed,
        result1 := { ok := (progressChild self.fut1).1.ok, errcode := FUTURE_SUCCESS } } := by
  simp [join_step1, h, hc]

theorem join_step1_failure (self : JoinFuture) (h : self.fut1_completed = .pending)
    (hc : (progressChild self.fut1).2 = .failure) :
    join_step1 self =
      { self with
        fut1 := (progressChild self.fut1).1, fut1_completed := .failure,
        result1 := { ok := 0, errcode := (progressChild self.fut1).1.errcode } } := by
  simp [join_step1, h, hc]

theorem join_step1_pending (self : JoinFuture) (h : self.fut1_completed = .pending)
    (hc : (progressChild self.fut1).2 = .pending) :
    join_step1 self = { self with fut1 := (progressChild self.fut1).1 } := by
  simp [join_step1, h, hc]

theorem join_step2_skip (t : JoinFuture) (h : ¬ t.fut2_completed = .pending) :
    join_step2 t = t := by
  unfold join_step2
  rw [if_neg h]

theorem join_step2_completed (t : JoinFuture) (h : t.fut2_completed = .pending)
    (hc : (progressChild t.fut2).2 = .completed) :
    join_step2 t =
      { t with
        fut2 := (progressChild t.fut2).1, fut2_completed := .completed,
        result2 := { ok := (progressChild t.fut2).1.ok, errcode := FUTURE_SUCCESS } } := by
  simp [join_step2, h, hc]

theorem join_step2_failure (t : JoinFuture) (h : t.fut2_completed = .pending)
    (hc : (progressChild t.fut2).2 = .failure) :
    join_step2 t =
      { t with
        fut2 := (progressChild t.fut2).1, fut2_completed := .failure,
        result2 := { ok := 0, errcode := (progressChild t.fut2).1.errcode } } := by
  simp [join_step2, h, hc]

theorem join_step2_pending (t : JoinFuture) (h : t.fut2_completed = .pending)
    (hc : (progressChild t.fut2).2 = .pending) :
    join_step2 t = { t with fut2 := (progressChild t.fut2).1 } := by
  simp [join_step2, h, hc]

theorem join_step1_fut2_side (self : JoinFuture) :
    (join_step1 self).fut2 = self.fut2 ∧
    (join_step1 self).fut2_completed = self.fut2_completed ∧
    (join_step1 self).result2 = self.result2 := by
  unfold join_step1
  repeat' split <;> try simp

theorem join_step2_fut1_side (t : JoinFuture) :
    (join_step2 t).fut1 = t.fut1 ∧
    (join_step2 t).fut1_completed = t.fut1_completed ∧
    (join_step2 t).result1 = t.result1 := by
  unfold join_step2
  repeat' split <;> try simp

theorem joinClassify_fields (s2 : JoinFuture) :
    (joinClassify s2).1.fut1 = s2.fut1 ∧ (joinClassify s2).1.fut2 = s2.fut2 ∧
    (joinClassify s2).1.fut1_completed = s2.fut1_completed ∧
    (joinClassify s2).1.fut2_completed = s2.fut2_completed ∧
    (joinClassify s2).1.result1 = s2.result1 ∧
    (joinClassify s2).1.result2 = s2.result2 := by
  unfold joinClassify
  repeat' split <;> try simp

theorem joinClassify_pending (s2 : JoinFuture)
    (h : s2.fut1_completed = .pending ∨ s2.fut2_completed = .pending) :
    joinClassify s2 = (s2, .pending) := by
  simp [joinClassify, h]

theorem joinClassify_both_fail (s2 : JoinFuture)
    (h1 : s2.fut1_completed = .failure) (h2 : s2.fut2_completed = .failure) :
    joinClassify s2 = ({ s2 with errcode := JOIN_FUTURE_ERR_BOTH_FUTS_FAILED }, .failure) := by
  simp [joinClassify, h1, h2]

theorem joinClassify_fail1 (s2 : JoinFuture)
    (h1 : s2.fut1_completed = .failure) (h2 : s2.fut2_completed = .completed) :
    joinClassify s2 = ({ s2 with errcode := JOIN_FUTURE_ERR_FUT1_FAILED }, .failure) := by
  simp [joinClassify, h1, h2]

theorem joinClassify_fail2 (s2 : JoinFuture)
    (h1 : s2.fut1_completed = .completed) (h2 : s2.fut2_completed = .failure) :
    joinClassify s2 = ({ s2 with errcode := JOIN_FUTURE_ERR_FUT2_FAILED }, .failure) := by
  simp [joinClassify, h1, h2]

theorem joinClassify_done (s2 : JoinFuture)
    (h1 : s2.fut1_completed = .completed) (h2 : s2.fut2_completed = .completed) :
    joinClassify s2 = ({ s2 with ok := s2.result1.ok }, .completed) := by
  simp [joinClassify, h1, h2]

/-- C5: one outer `join_progress` call progresses each child exactly once
if its status is still pending and not at all otherwise (keeping its
status and snapshot untouched); a child reaching its terminal state has
its ok/errcode snapshot cached at that first terminal return; and the
outer result is Pending iff a child is still pending, otherwise Failure
with `JOIN_ERR_BOTH_FAILED` / `JOIN_ERR_FUT1_FAILED` /
`JOIN_ERR_FUT2_FAILED` by which children failed, or Completed with
`self.ok` equal to fut1's cached ok. -/
theorem join_progress_spec (self : JoinFuture) :
    (self.fut1_completed = .pending →
      (join_progress self).1.fut1.calls = self.fut1.calls + 1) ∧
    (¬ self.fut1_completed = .pending →
      (join_progress self).1.fut1 = self.fut1 ∧
      (join_progress self).1.fut1_completed = self.fut1_completed ∧
      (join_progress self).1.result1 = self.result1) ∧
    (self.fut2_completed = .pending →
      (join_progress self).1.fut2.calls = self.fut2.calls + 1) ∧
    (¬ self.fut2_completed = .pending →
      (join_progress self).1.fut2 = self.fut2 ∧
      (join_progress self).1.fut2_completed = self.fut2_completed ∧
      (join_progress self).1.result2 = self.result2) ∧
    (self.fut1_completed = .pending →
      ((progressChild self.fut1).2 = .completed →
        (join_progress self).1.fut1_completed = .completed ∧
        (join_progress self).1.result1 =
          { ok := (progressChild self.fut1).1.ok, errcode := FUTURE_SUCCESS }) ∧
      ((progressChild self.fut1).2 = .failure →
        (join_progress self).1.fut1_completed = .failure ∧
        (join_progress self).1.result1 =
          { ok := 0, errcode := (progressChild self.fut1).1.errcode }) ∧
      ((progressChild self.fut1).2 = .pending →
        (join_progress self).1.fut1_completed = .pending ∧
        (join_progress self).1.result1 = self.result1)) ∧
    (self.fut2_completed = .pending →
      ((progressChild self.fut2).2 = .completed →
        (join_progress self).1.fut2_completed = .completed ∧
        (join_progress self).1.result2 =
          { ok := (progressChild self.fut2).1.ok, errcode := FUTURE_SUCCESS }) ∧
      ((progressChild self.fut2).2 = .failure →
        (join_progress self).1.fut2_completed = .failure ∧
        (join_progress self).1.result2 =
          { ok := 0, errcode := (progressChild self.fut2).1.errcode }) ∧
      ((progressChild self.fut2).2 = .pending →
        (join_progress self).1.fut2_completed = .pending ∧
        (join_progress self).1.result2 = self.result2)) ∧
    ((join_progress self).2 = .pending ↔
      ((join_progress self).1.fut1_completed = .pending ∨
        (join_progress self).1.fut2_completed = .pending)) ∧
    ((join_progress self).1.fut1_completed = .failure ∧
        (join_progress self).1.fut2_completed = .failure →
      (join_progress self).2 = .failure ∧
      (join_progress self).1.errcode = JOIN_FUTURE_ERR_BOTH_FUTS_FAILED) ∧
    ((join_progress self).1.fut1_completed = .failure ∧
        (join_progress self).1.fut2_completed = .completed →
      (join_progress self).2 = .failure ∧
      (join_progress self).1.errcode = JOIN_FUTURE_ERR_FUT1_FAILED) ∧
    ((join_progress self).1.fut1_completed = .completed ∧
        (join_progress self).1.fut2_completed = .failure →
      (join_progress self).2 = .failure ∧
      (join_progress self).1.errcode = JOIN_FUTURE_ERR_FUT2_FAILED) ∧
    ((join_progress self).1.fut1_completed = .completed ∧
        (join_progress self).1.fut2_completed = .completed →
      (join_progress self).2 = .completed ∧
      (join_progress self).1.ok = (join_progress self).1.result1.ok) := by
  obtain ⟨e1, e2, e3⟩ := join_step2_fut1_side (join_step1 self)
  obtain ⟨f1, f2, f3⟩ := join_step1_fut2_side self
  obtain ⟨g1, g2, g3, g4, g5, g6⟩ := joinClassify_fields (join_step2 (join_step1 self))
  have key1 : (join_progress self).1.fut1 = (join_step1 self).fut1 := by
    rw [show join_progress self = joinClassify (join_step2 (join_step1 self)) from rfl,
      g1, e1]
  have key2 : (join_progress self).1.fut1_completed = (join_step1 self).fut1_completed := by
    rw [show join_progress self = joinClassify (join_step2 (join_step1 self)) from rfl,
      g3, e2]
  have key3 : (join_progress self).1.result1 = (join_step1 self).result1 := by
    rw [show join_progress self = joinClassify (join_step2 (join_step1 self)) from rfl,
      g5, e3]
  have key4 : (join_progress self).1.fut2 = (join_step2 (join_step1 self)).fut2 := by
    rw [show join_progress self = joinClassify (join_step2 (join_step1 self)) from rfl, g2]
  have key5 : (join_progress self).1.fut2_completed
      = (join_step2 (join_step1 self)).fut2_completed := by
    rw [show join_progress self = joinClassify (join_step2 (join_step1 self)) from rfl, g4]
  have key6 : (join_progress self).1.result2 = (join_step2 (join_step1 self)).result2 := by
    rw [show join_progress self = joinClassify (join_step2 (join_step1 self)) from rfl, g6]
  have keyjp : join_progress self = joinClassify (join_step2 (join_step1 self)) := rfl
  have keyc1 : (join_progress self).1.fut1_completed
      = (join_step2 (join_step1 self)).fut1_completed := by
    rw [keyjp, g3]
  refine ⟨?_, ?_, ?_, ?_, ?_, ?_, ?_, ?_, ?_, ?_, ?_⟩
  · intro h
    rw [key1]
    cases hc : (progressChild self.fut1).2 with
    | pending => rw [join_step1_pending self h hc]; exact rfl
    | completed => rw [join_step1_completed self h hc]; exact rfl
    | failure => rw [join_step1_failure self h hc]; exact rfl
  · intro h
    rw [key1, key2, key3, join_step1_skip self h]
    exact ⟨rfl, rfl, rfl⟩
  · intro h
    have h' : (join_step1 self).fut2_completed = .pending := by rw [f2]; exact h
    rw [key4]
    cases hc : (progressChild self.fut2).2 with
    | pending =>
      rw [join_step2_pending _ h' (by rw [f1]; exact hc), f1]; exact rfl
    | completed =>
      rw [join_step2_completed _ h' (by rw [f1]; exact hc), f1]; exact rfl
    | failure =>
      rw [join_step2_failure _ h' (by rw [f1]; exact hc), f1]; exact rfl
  · intro h
    have h' : ¬ (join_step1 self).fut2_completed = .pending := by rw [f2]; exact h
    rw [key4, key5, key6, join_step2_skip _ h']
    exact ⟨f1, f2, f3⟩
  · intro h
    refine ⟨?_, ?_, ?_⟩ <;> intro hc
    · rw [key2, key3, join_step1_completed self h hc]
      exact ⟨rfl, rfl⟩
    · rw [key2, key3, join_step1_failure self h hc]
      exact ⟨rfl, rfl⟩
    · rw [key2, key3, join_step1_pending self h hc]
      exact ⟨h, rfl⟩
  · intro h
    have h' : (join_step1 self).fut2_completed = .pending := by rw [f2]; exact h
    refine ⟨?_, ?_, ?_⟩ <;> intro hc
    · rw [key5, key6, join_step2_completed _ h' (by rw [f1]; exact hc), f1]
      exact ⟨rfl, rfl⟩
    · rw [key5, key6, join_step2_failure _ h' (by rw [f1]; exact hc), f1]
      exact ⟨rfl, rfl⟩
    · rw [key5, key6, join_step2_pending _ h' (by rw [f1]; exact hc)]
      exact ⟨h', f3⟩
  · rw [keyjp, g3, g4]
    constructor
    · intro hp
      by_contra hno
      push_neg at hno
      obtain ⟨n1, n2⟩ := hno
      cases h1 : (join_step2 (join_step1 self)).fut1_completed with
      | pending => exact n1 h1
      | completed =>
        cases h2 : (join_step2 (join_step1 self)).fut2_completed with
        | pending => exact n2 h2
        | completed =>
          rw [joinClassify_done _ h1 h2] at hp
          exact FutureState.noConfusion hp
        | failure =>
          rw [joinClassify_fail2 _ h1 h2] at hp
          exact FutureState.noConfusion hp
      | failure =>
        cases h2 : (join_step2 (join_step1 self)).fut2_completed with
        | pending => exact n2 h2
        | completed =>
          rw [joinClassify_fail1 _ h1 h2] at hp
          exact FutureState.noConfusion hp
        | failure =>
          rw [joinClassify_both_fail _ h1 h2] at hp
          exact FutureState.noConfusion hp
    · intro hor
      rw [joinClassify_pending _ hor]
  · intro hb
    obtain ⟨h1, h2⟩ := hb
    rw [keyc1] at h1
    rw [key5] at h2
    rw [keyjp, joinClassify_both_fail _ h1 h2]
    exact ⟨rfl, rfl⟩
  · intro hb
    obtain ⟨h1, h2⟩ := hb
    rw [keyc1] at h1
    rw [key5] at h2
    rw [keyjp, joinClassify_fail1 _ h1 h2]
    exact ⟨rfl, rfl⟩
  · intro hb
    obtain ⟨h1, h2⟩ := hb
    rw [keyc1] at h1
    rw [key5] at h2
    rw [keyjp, joinClassify_fail2 _ h1 h2]
    exact ⟨rfl, rfl⟩
  · intro hb
    obtain ⟨h1, h2⟩ := hb
    rw [keyc1] at h1
    rw [key5] at h2
    rw [keyjp, joinClassify_done _ h1 h2]
    exact ⟨rfl, rfl⟩

/-- A child future scripted by a finite list of responses; calls beyond
the script return Pending. -/
def scriptedChild (outs : List (FutureState × Nat × Nat)) : Child :=
  { beh := fun n _ => outs.getD n (.pending, 0, 0),
    calls := 0, arg := 0, ok := 0, errcode := 0 }

/-- A child that fails on its first progress call with errcode 11. -/
def childFail11 : Child := scriptedChild [(.failure, 0, 11)]

/-- A child that completes on its first progress call with ok 5. -/
def childOk5 : Child := scriptedChild [(.completed, 5, 0)]

/-- A child that completes on its first progress call with ok 7. -/
def childOk7 : Child := scriptedChild [(.completed, 7, 0)]

/-- A child that completes immediately with ok `arg + 35` (it reads the
`arg` slot its parent wrote). -/
def childArg35 : Child :=
  { beh := fun _ a => (.completed, a + 35, 0), calls := 0, arg := 0, ok := 0, errcode := 0 }

/-- Witness for C5: joining two children that both fail on their first
progress call yields Failure with `JOIN_ERR_BOTH_FAILED`. -/
theorem join_progress_spec_witness :
    ((join_progress (future_join childFail11 childFail11 false 0)).1.fut1_completed
        = .failure ∧
      (join_progress (future_join childFail11 childFail11 false 0)).1.fut2_completed
        = .failure) ∧
    (join_progress (future_join childFail11 childFail11 false 0)).2 = .failure ∧
    (join_progress (future_join childFail11 childFail11 false 0)).1.errcode
      = JOIN_FUTURE_ERR_BOTH_FUTS_FAILED :=
  ⟨⟨by decide, by decide⟩,
    (join_progress_spec (future_join childFail11 childFail11 false 0)).2.2.2.2.2.2.2.1
      ⟨by decide, by decide⟩⟩

/-! ### Select combinator lemmas -/

theorem select_step1_completed1 (s : SelectFuture)
    (h : s.which_completed = .completedFut1) :
    select_step1 s = ({ s with ok := s.fut1.ok }, some .completed) := by
  simp [select_step1, h]

theorem select_step1_completed2 (s : SelectFuture)
    (h : s.which_completed = .completedFut2) :
    select_step1 s = ({ s with ok := s.fut2.ok }, some .completed) := by
  simp [select_step1, h]

theorem select_step1_failedBoth (s : SelectFuture)
    (h : s.which_completed = .failedBoth) :
    select_step1 s = ({ s with errcode := s.fut1.errcode }, some .failure) := by
  simp [select_step1, h]

theorem select_step1_failedFut1 (s : SelectFuture)
    (h : s.which_completed = .failedFut1) :
    select_step1 s = (s, none) := by
  simp [select_step1, h]

theorem select_step1_go_completed (s : SelectFuture)
    (h : s.which_completed = .snone ∨ s.which_completed = .failedFut2)
    (hc : (progressChild s.fut1).2 = .completed) :
    select_step1 s =
      ({ s with
         fut1 := (progressChild s.fut1).1, which_completed := .completedFut1,
         ok := (progressChild s.fut1).1.ok }, some .completed) := by
  rcases h with h | h <;> simp [select_step1, h, hc]

theorem select_step1_none_fail (s : SelectFuture)
    (h : s.which_completed = .snone) (hc : (progressChild s.fut1).2 = .failure) :
    select_step1 s =
      ({ s with fut1 := (progressChild s.fut1).1, which_completed := .failedFut1 },
        none) := by
  simp [select_step1, h, hc]

theorem select_step1_f2_fail (s : SelectFuture)
    (h : s.which_completed = .failedFut2) (hc : (progressChild s.fut1).2 = .failure) :
    select_step1 s =
      ({ s with fut1 := (progressChild s.fut1).1, which_completed := .failedBoth },
        none) := by
  simp [select_step1, h, hc]

theorem select_step1_go_pending (s : SelectFuture)
    (h : s.which_completed = .snone ∨ s.which_completed = .failedFut2)
    (hc : (progressChild s.fut1).2 = .pending) :
    select_step1 s = ({ s with fut1 := (progressChild s.fut1).1 }, none) := by
  rcases h with h | h <;> simp [select_step1, h, hc]

theorem select_step2_skip (t : SelectFuture)
    (h : ¬ (t.which_completed = .snone ∨ t.which_completed = .failedFut1)) :
    select_step2 t = (t, .pending) := by
  unfold select_step2
  rw [if_neg h]

theorem select_step2_completed (t : SelectFuture)
    (h : t.which_completed = .snone ∨ t.which_completed = .failedFut1)
    (hc : (progressChild t.fut2).2 = .completed) :
    select_step2 t =
      ({ t with
         fut2 := (progressChild t.fut2).1, which_completed := .completedFut2,
         ok := (progressChild t.fut2).1.ok }, .completed) := by
  rcases h with h | h <;> simp [select_step2, h, hc]

theorem select_step2_none_fail (t : SelectFuture)
    (h : t.which_completed = .snone) (hc : (progressChild t.fut2).2 = .failure) :
    select_step2 t =
      ({ t with fut2 := (progressChild t.fut2).1, which_completed := .failedFut2 },
        .pending) := by
  simp [select_step2, h, hc]

theorem select_step2_f1_fail (t : SelectFuture)
    (h : t.which_completed = .failedFut1) (hc : (progressChild t.fut2).2 = .failure) :
    select_step2 t =
      ({ t with fut2 := (progressChild t.fut2).1, which_completed := .failedBoth },
        .pending) := by
  simp [select_step2, h, hc]

theorem select_step2_pending (t : SelectFuture)
    (h : t.which_completed = .snone ∨ t.which_completed = .failedFut1)
    (hc : (progressChild t.fut2).2 = .pending) :
    select_step2 t = ({ t with fut2 := (progressChild t.fut2).1 }, .pending) := by
  rcases h with h | h <;> simp [select_step2, h, hc]

theorem select_step1_fut2_side (s : SelectFuture) :
    (select_step1 s).1.fut2 = s.fut2 := by
  unfold select_step1
  repeat' split <;> try simp

theorem select_progress_of_some (s : SelectFuture) (t : SelectFuture)
    (st : FutureState) (h : select_step1 s = (t, some st)) :
    select_progress s = (t, st) := by
  unfold select_progress
  rw [h]

theorem select_progress_of_none (s : SelectFuture) (t : SelectFuture)
    (h : select_step1 s = (t, none)) :
    select_progress s = select_step2 t := by
  unfold select_progress
  rw [h]

/-- C6: in one `select_progress` call, fut1 is progressed exactly when the
tag at entry is None or FailedFut2 and is untouched otherwise; fut2 is
progressed exactly when the tag after the fut1 step is None or FailedFut1
and is untouched otherwise (so a child recorded as Failed is never
progressed again); a call entered with FailedBoth returns Failure with
`self.errcode` set from fut1; if fut1 completes, the tag becomes
CompletedFut1, `self.ok` is set from fut1 and Completed is returned; and
if fut1 fails the tag moves None → FailedFut1, FailedFut2 → FailedBoth. -/
theorem select_progress_spec (s : SelectFuture) :
    ((s.which_completed = .snone ∨ s.which_completed = .failedFut2) →
      (select_progress s).1.fut1.calls = s.fut1.calls + 1) ∧
    (¬ (s.which_completed = .snone ∨ s.which_completed = .failedFut2) →
      (select_progress s).1.fut1 = s.fut1) ∧
    (((select_step1 s).1.which_completed = .snone ∨
        (select_step1 s).1.which_completed = .failedFut1) →
      (select_progress s).1.fut2.calls = s.fut2.calls + 1) ∧
    (¬ ((select_step1 s).1.which_completed = .snone ∨
        (select_step1 s).1.which_completed = .failedFut1) →
      (select_progress s).1.fut2 = s.fut2) ∧
    (s.which_completed = .failedBoth →
      (select_progress s).2 = .failure ∧
      (select_progress s).1.errcode = s.fut1.errcode) ∧
    ((s.which_completed = .snone ∨ s.which_completed = .failedFut2) →
      (progressChild s.fut1).2 = .completed →
      (select_progress s).2 = .completed ∧
      (select_progress s).1.which_completed = .completedFut1 ∧
      (select_progress s).1.ok = (progressChild s.fut1).1.ok) ∧
    (s.which_completed = .snone → (progressChild s.fut1).2 = .failure →
      (select_step1 s).1.which_completed = .failedFut1) ∧
    (s.which_completed = .failedFut2 → (progressChild s.fut1).2 = .failure →
      (select_step1 s).1.which_completed = .failedBoth) := by
  cases hw : s.which_completed <;>
    cases hc1 : (progressChild s.fut1).2 <;>
      cases hc2 : (progressChild s.fut2).2 <;>
        simp_all [select_progress, select_step1, select_step2, progressChild]

/-- Witness for C6: a select whose fut1 fails on the first call moves its
tag from None to FailedFut1. -/
theorem select_progress_spec_witness :
    (future_select childFail11 childOk5 false 0 0 0).which_completed = .snone ∧
    (progressChild (future_select childFail11 childOk5 false 0 0 0).fut1).2 = .failure ∧
    (select_step1 (future_select childFail11 childOk5 false 0 0 0)).1.which_completed
      = .failedFut1 :=
  ⟨by decide, by decide,
    (select_progress_spec (future_select childFail11 childOk5 false 0 0 0)).2.2.2.2.2.2.1
      (by decide) (by decide)⟩

theorem select_progress_completed1 (s : SelectFuture)
    (h : s.which_completed = .completedFut1) :
    select_progress s = ({ s with ok := s.fut1.ok }, .completed) :=
  select_progress_of_some s _ _ (select_step1_completed1 s h)

theorem select_progress_completed2 (s : SelectFuture)
    (h : s.which_completed = .completedFut2) :
    select_progress s = ({ s with ok := s.fut2.ok }, .completed) :=
  select_progress_of_some s _ _ (select_step1_completed2 s h)

/-- C7: once a select's tag is CompletedFut1 or CompletedFut2, every
subsequent `select_progress` call returns Completed with the same
`self.ok` as the first such call, and neither child is ever progressed
again (both children and the tag stay exactly as they were). -/
theorem select_completed_stable (s : SelectFuture)
    (h : s.which_completed = .completedFut1 ∨ s.which_completed = .completedFut2)
    (n : Nat) :
    (select_progress (selectStates s n)).2 = .completed ∧
    (select_progress (selectStates s n)).1.ok = (select_progress s).1.ok ∧
    (selectStates s n).fut1 = s.fut1 ∧
    (selectStates s n).fut2 = s.fut2 ∧
    (selectStates s n).which_completed = s.which_completed := by
  induction n with
  | zero =>
    rcases h with h | h
    · simp only [selectStates]
      rw [select_progress_completed1 s h]
      exact ⟨rfl, trivial, trivial, trivial, trivial⟩
    · simp only [selectStates]
      rw [select_progress_completed2 s h]
      exact ⟨rfl, trivial, trivial, trivial, trivial⟩
  | succ n ih =>
    obtain ⟨ih1, ih2, ihf1, ihf2, ihw⟩ := ih
    have hstep : selectStates s (n + 1) = (select_progress (selectStates s n)).1 := rfl
    rcases h with h | h
    · have hw_n : (selectStates s n).which_completed = .completedFut1 := by rw [ihw, h]
      have hsucc : selectStates s (n + 1)
          = { selectStates s n with ok := (selectStates s n).fut1.ok } := by
        rw [hstep, select_progress_completed1 _ hw_n]
      have hw_n1 : (selectStates s (n + 1)).which_completed = .completedFut1 := by
        rw [hsucc]; exact hw_n
      refine ⟨?_, ?_, ?_, ?_, ?_⟩
      · rw [select_progress_completed1 _ hw_n1]
      · rw [select_progress_completed1 _ hw_n1, select_progress_completed1 s h]
        show (selectStates s (n + 1)).fut1.ok = s.fut1.ok
        rw [hsucc]
        show (selectStates s n).fut1.ok = s.fut1.ok
        rw [ihf1]
      · rw [hsucc]; exact ihf1
      · rw [hsucc]; exact ihf2
      · rw [hsucc]; show (selectStates s n).which_completed = s.which_completed; exact ihw
    · have hw_n : (selectStates s n).which_completed = .completedFut2 := by rw [ihw, h]
      have hsucc : selectStates s (n + 1)
          = { selectStates s n with ok := (selectStates s n).fut2.ok } := by
        rw [hstep, select_progress_completed2 _ hw_n]
      have hw_n1 : (selectStates s (n + 1)).which_completed = .completedFut2 := by
        rw [hsucc]; exact hw_n
      refine ⟨?_, ?_, ?_, ?_, ?_⟩
      · rw [select_progress_completed2 _ hw_n1]
      · rw [select_progress_completed2 _ hw_n1, select_progress_completed2 s h]
        show (selectStates s (n + 1)).fut2.ok = s.fut2.ok
        rw [hsucc]
        show (selectStates s n).fut2.ok = s.fut2.ok
        rw [ihf2]
      · rw [hsucc]; exact ihf1
      · rw [hsucc]; exact ihf2
      · rw [hsucc]; show (selectStates s n).which_completed = s.which_completed; exact ihw

/-- The state of a select that has just completed via its fut1. -/
def selDoneW : SelectFuture :=
  (select_progress (future_select childOk5 childOk5 false 0 0 0)).1

/-- Witness for C7: three further calls on a freshly completed select all
return Completed with the same ok and leave both children untouched. -/
theorem select_completed_stable_witness :
    (selDoneW.which_completed = .completedFut1 ∨
      selDoneW.which_completed = .completedFut2) ∧
    ((select_progress (selectStates selDoneW 3)).2 = .completed ∧
      (select_progress (selectStates selDoneW 3)).1.ok = (select_progress selDoneW).1.ok ∧
      (selectStates selDoneW 3).fut1 = selDoneW.fut1 ∧
      (selectStates selDoneW 3).fut2 = selDoneW.fut2 ∧
      (selectStates selDoneW 3).which_completed = selDoneW.which_completed) :=
  ⟨Or.inl (by decide), select_completed_stable selDoneW (Or.inl (by decide)) 3⟩

/-- C1 fails on the code: `future_select` never initializes `base.errcode`
(unlike `future_then` and `future_join`), so a select created while the
indeterminate field holds 7 returns Completed with `errcode = 7`, which is
not `FUTURE_SUCCESS`. -/
theorem select_completed_errcode_uninit :
    (select_progress (future_select childOk5 childOk5 false 0 0 7)).2 = .completed ∧
    (select_progress (future_select childOk5 childOk5 false 0 0 7)).1.errcode = 7 ∧
    ¬ (7 = FUTURE_SUCCESS) := by decide

/-! ### Then combinator lemmas -/

theorem then_progress_flagged (s : ThenFuture) (h : s.fut1_completed = true) :
    then_progress s = then_progress2 s := by
  simp [then_progress, h]

theorem then_progress_fut1_pending (s : ThenFuture) (h : s.fut1_completed = false)
    (hc : (progressChild s.fut1).2 = .pending) :
    then_progress s = ({ s with fut1 := (progressChild s.fut1).1 }, .pending) := by
  simp [then_progress, h, hc]

theorem then_progress_fut1_failure (s : ThenFuture) (h : s.fut1_completed = false)
    (hc : (progressChild s.fut1).2 = .failure) :
    then_progress s =
      ({ s with
         fut1 := (progressChild s.fut1).1,
         errcode := THEN_FUTURE_ERR_FUT1_FAILED }, .failure) := by
  simp [then_progress, h, hc]

theorem then_progress_fut1_completed (s : ThenFuture) (h : s.fut1_completed = false)
    (hc : (progressChild s.fut1).2 = .completed) :
    then_progress s =
      then_progress2
        { s with
          fut1 := (progressChild s.fut1).1, fut1_completed := true,
          fut2 := { s.fut2 with arg := (progressChild s.fut1).1.ok } } := by
  simp [then_progress, h, hc]

theorem then_progress2_pending (s : ThenFuture)
    (hc : (progressChild s.fut2).2 = .pending) :
    then_progress2 s = ({ s with fut2 := (progressChild s.fut2).1 }, .pending) := by
  simp [then_progress2, hc]

theorem then_progress2_failure (s : ThenFuture)
    (hc : (progressChild s.fut2).2 = .failure) :
    then_progress2 s =
      ({ s with
         fut2 := (progressChild s.fut2).1,
         errcode := THEN_FUTURE_ERR_FUT2_FAILED }, .failure) := by
  simp [then_progress2, hc]

theorem then_progress2_completed (s : ThenFuture)
    (hc : (progressChild s.fut2).2 = .completed) :
    then_progress2 s =
      ({ s with
         fut2 := (progressChild s.fut2).1,
         ok := (progressChild s.fut2).1.ok }, .completed) := by
  simp [then_progress2, hc]

theorem then_progress2_fut2 (s : ThenFuture) :
    (then_progress2 s).1.fut2 = (progressChild s.fut2).1 ∧
    (then_progress2 s).1.fut1_completed = s.fut1_completed := by
  cases hc : (progressChild s.fut2).2 with
  | pending => rw [then_progress2_pending s hc]; exact ⟨rfl, rfl⟩
  | completed => rw [then_progress2_completed s hc]; exact ⟨rfl, rfl⟩
  | failure => rw [then_progress2_failure s hc]; exact ⟨rfl, rfl⟩

/-- Trace invariant for C4: along any run of `then_progress` calls from a
fresh `future_then` whose prefix returned only Pending, as long as
`fut1_completed` is still false, fut2 has never been progressed. -/
theorem then_fut2_untouched (f1 f2 : Child) (h2 : f2.calls = 0) (n : Nat)
    (hp : ∀ k, k < n → thenRes (future_then f1 f2) k = .pending) :
    ¬ (thenStates (future_then f1 f2) n).fut1_completed = true →
      (thenStates (future_then f1 f2) n).fut2.calls = 0 := by
  induction n with
  | zero =>
    intro _
    exact h2
  | succ n ih =>
    have hpn : ∀ k, k < n → thenRes (future_then f1 f2) k = .pending :=
      fun k hk => hp k (Nat.lt_succ_of_lt hk)
    have hres : thenRes (future_then f1 f2) n = .pending := hp n (Nat.lt_succ_self n)
    intro hflag
    have hstep : thenStates (future_then f1 f2) (n + 1)
        = (then_progress (thenStates (future_then f1 f2) n)).1 := rfl
    cases hf : (thenStates (future_then f1 f2) n).fut1_completed with
    | true =>
      exfalso
      apply hflag
      rw [hstep, then_progress_flagged _ hf]
      exact (then_progress2_fut2 _).2.symm ▸ hf
    | false =>
      cases hc : (progressChild (thenStates (future_then f1 f2) n).fut1).2 with
      | pending =>
        rw [hstep, then_progress_fut1_pending _ hf hc]
        exact ih hpn (by rw [hf]; exact Bool.false_ne_true)
      | failure =>
        exfalso
        have : thenRes (future_then f1 f2) n = .failure := by
          unfold thenRes
          rw [then_progress_fut1_failure _ hf hc]
        rw [hres] at this
        exact FutureState.noConfusion this
      | completed =>
        exfalso
        apply hflag
        rw [hstep, then_progress_fut1_completed _ hf hc]
        exact (then_progress2_fut2 _).2.symm ▸ rfl

theorem progressChild_arg (c : Child) : (progressChild c).1.arg = c.arg := rfl

/-- C4: along any run of `then_progress` calls from a fresh `future_then`
whose earlier calls all returned Pending: fut2 is never progressed while
fut1 has not completed; on the call where fut1 returns Failure the
combinator returns Failure with errcode `THEN_ERR_FUT1_FAILED` and fut2
is still unprogressed; on the call where fut1 returns Completed, fut1.ok
is copied into fut2.arg while fut2 is still at its first progression, and
the call continues as the fut2 half on that updated state; and the fut2
half returns Failure with errcode `THEN_ERR_FUT2_FAILED` when fut2 fails
and Completed with `self.ok = fut2.ok` when fut2 completes — subsequent
calls with the flag set running exactly that fut2 half. -/
theorem then_progress_trace_spec (f1 f2 : Child) (h2 : f2.calls = 0) (n : Nat)
    (hp : ∀ k, k < n → thenRes (future_then f1 f2) k = .pending) :
    (¬ (thenStates (future_then f1 f2) n).fut1_completed = true →
      (thenStates (future_then f1 f2) n).fut2.calls = 0) ∧
    ((thenStates (future_then f1 f2) n).fut1_completed = false →
      (progressChild (thenStates (future_then f1 f2) n).fut1).2 = .failure →
      thenRes (future_then f1 f2) n = .failure ∧
      (thenStates (future_then f1 f2) (n + 1)).errcode = THEN_FUTURE_ERR_FUT1_FAILED ∧
      (thenStates (future_then f1 f2) (n + 1)).fut2.calls = 0) ∧
    ((thenStates (future_then f1 f2) n).fut1_completed = false →
      (progressChild (thenStates (future_then f1 f2) n).fut1).2 = .completed →
      (thenStates (future_then f1 f2) n).fut2.calls = 0 ∧
      (thenStates (future_then f1 f2) (n + 1)).fut2.arg
        = (progressChild (thenStates (future_then f1 f2) n).fut1).1.ok ∧
      then_progress (thenStates (future_then f1 f2) n)
        = then_progress2
            { thenStates (future_then f1 f2) n with
              fut1 := (progressChild (thenStates (future_then f1 f2) n).fut1).1,
              fut1_completed := true,
              fut2 := { (thenStates (future_then f1 f2) n).fut2 with
                        arg := (progressChild (thenStates (future_then f1 f2) n).fut1).1.ok } }) ∧
    (∀ s : ThenFuture,
      ((progressChild s.fut2).2 = .failure →
        (then_progress2 s).2 = .failure ∧
        (then_progress2 s).1.errcode = THEN_FUTURE_ERR_FUT2_FAILED) ∧
      ((progressChild s.fut2).2 = .completed →
        (then_progress2 s).2 = .completed ∧
        (then_progress2 s).1.ok = (progressChild s.fut2).1.ok)) ∧
    ((thenStates (future_then f1 f2) n).fut1_completed = true →
      then_progress (thenStates (future_then f1 f2) n)
        = then_progress2 (thenStates (future_then f1 f2) n)) := by
  have huntouched := then_fut2_untouched f1 f2 h2 n hp
  have hstep : thenStates (future_then f1 f2) (n + 1)
      = (then_progress (thenStates (future_then f1 f2) n)).1 := rfl
  refine ⟨huntouched, ?_, ?_, ?_, ?_⟩
  · intro hf hc
    have heq := then_progress_fut1_failure _ hf hc
    refine ⟨?_, ?_, ?_⟩
    · unfold thenRes
      rw [heq]
    · rw [hstep, heq]
    · rw [hstep, heq]
      exact huntouched (by rw [hf]; exact Bool.false_ne_true)
  · intro hf hc
    have heq := then_progress_fut1_completed _ hf hc
    refine ⟨huntouched (by rw [hf]; exact Bool.false_ne_true), ?_, heq⟩
    rw [hstep, heq]
    rw [(then_progress2_fut2 _).1]
    rw [progressChild_arg]
  · intro s
    constructor
    · intro hc
      rw [then_progress2_failure s hc]
      exact ⟨rfl, rfl⟩
    · intro hc
      rw [then_progress2_completed s hc]
      exact ⟨rfl, rfl⟩
  · intro hf
    exact then_progress_flagged _ hf

/-- Witness for C4 at the spec's sequential-success scenario: fut1
completes with ok 7 on the first call; fut2 reads its `arg` and completes
with `arg + 35`; the combinator completes with ok 42 on the first call,
confirming the arg transfer happened before fut2's first progression. -/
theorem then_progress_trace_spec_witness :
    ((thenStates (future_then childOk7 childArg35) 0).fut1_completed = false ∧
      (progressChild (thenStates (future_then childOk7 childArg35) 0).fut1).2
        = .completed) ∧
    ((thenStates (future_then childOk7 childArg35) 0).fut2.calls = 0 ∧
      (thenStates (future_then childOk7 childArg35) 1).fut2.arg
        = (progressChild (thenStates (future_then childOk7 childArg35) 0).fut1).1.ok ∧
      then_progress (thenStates (future_then childOk7 childArg35) 0)
        = then_progress2
            { thenStates (future_then childOk7 childArg35) 0 with
              fut1 := (progressChild (thenStates (future_then childOk7 childArg35) 0).fut1).1,
              fut1_completed := true,
              fut2 := { (thenStates (future_then childOk7 childArg35) 0).fut2 with
                        arg := (progressChild
                          (thenStates (future_then childOk7 childArg35) 0).fut1).1.ok } }) ∧
    (then_progress (future_then childOk7 childArg35)).2 = .completed ∧
    (then_progress (future_then childOk7 childArg35)).1.ok = 42 :=
  ⟨⟨by decide, by decide⟩,
    (then_progress_trace_spec childOk7 childArg35 rfl 0
        (fun k hk => absurd hk (Nat.not_lt_zero k))).2.2.1
      (by decide) (by decide),
    by decide, by decide⟩

/-! ### Executor drive-loop lemmas -/

theorem execProgress_counts (beh : Nat → Nat → FutureState × Int) (s : ExecSt)
    (fut : Nat) (que1 : FutQue) (g : Nat) :
    (execProgress beh s fut que1).counts g
      = if g = fut then s.counts g + 1 else s.counts g := rfl

theorem execProgress_que (beh : Nat → Nat → FutureState × Int) (s : ExecSt)
    (fut : Nat) (que1 : FutQue) :
    (execProgress beh s fut que1).que = que1 := rfl

theorem foldl_wake_fields (l : List Nat) :
    ∀ s : ExecSt,
      (l.foldl waker_wake s).counts = s.counts ∧
      (l.foldl waker_wake s).mio = s.mio ∧
      (l.foldl waker_wake s).polls = s.polls ∧
      (l.foldl waker_wake s).que.max_size = s.que.max_size ∧
      s.que.size ≤ (l.foldl waker_wake s).que.size := by
  induction l with
  | nil => intro s; exact ⟨rfl, rfl, rfl, rfl, Nat.le_refl _⟩
  | cons e rest ih =>
    intro s
    obtain ⟨i1, i2, i3, i4, i5⟩ := ih (waker_wake s e)
    refine ⟨i1.trans rfl, i2.trans rfl, i3.trans rfl,
      i4.trans (push_max_size s.que e), Nat.le_trans (push_size_le s.que e) i5⟩

theorem mio_poll_id (oracle : Nat → List Nat) (t : ExecSt)
    (h : t.mio.registered_count = 0) : mio_poll oracle t = t := by
  simp [mio_poll, h]

theorem mio_poll_expand (oracle : Nat → List Nat) (t : ExecSt)
    (h : ¬ t.mio.registered_count = 0) :
    mio_poll oracle t
      = { ((oracle t.polls).take MAX_EVENTS).foldl waker_wake t with
          polls := t.polls + 1 } := by
  simp [mio_poll, h]

theorem mio_poll_counts (oracle : Nat → List Nat) (t : ExecSt) :
    (mio_poll oracle t).counts = t.counts := by
  by_cases h : t.mio.registered_count = 0
  · rw [mio_poll_id oracle t h]
  · rw [mio_poll_expand oracle t h]
    exact (foldl_wake_fields _ t).1

theorem mio_poll_max_size (oracle : Nat → List Nat) (t : ExecSt) :
    (mio_poll oracle t).que.max_size = t.que.max_size := by
  by_cases h : t.mio.registered_count = 0
  · rw [mio_poll_id oracle t h]
  · rw [mio_poll_expand oracle t h]
    exact (foldl_wake_fields _ t).2.2.2.1

theorem foldl_wake_size_pos (l : List Nat) (t : ExecSt) (hl : l ≠ [])
    (hz : t.que.size = 0) (hcap : 1 ≤ t.que.max_size) :
    (l.foldl waker_wake t).que.size ≠ 0 := by
  obtain ⟨e, rest, he⟩ := List.exists_cons_of_ne_nil hl
  subst he
  have h1 : (waker_wake t e).que.size = 1 := by
    show (push t.que e).size = 1
    unfold push
    rw [if_neg (by omega)]
    show t.que.size + 1 = 1
    omega
  have h2 := (foldl_wake_fields rest (waker_wake t e)).2.2.2.2
  show ¬ (rest.foldl waker_wake (waker_wake t e)).que.size = 0
  omega

theorem mio_poll_nonempty (oracle : Nat → List Nat) (t : ExecSt)
    (hcap : 1 ≤ t.que.max_size) (hor : oracle t.polls ≠ [])
    (h : ¬ t.mio.registered_count = 0) (hz : t.que.size = 0) :
    (mio_poll oracle t).que.size ≠ 0 := by
  have hne : (oracle t.polls).take MAX_EVENTS ≠ [] := by
    intro hcontra
    have hlen : ((oracle t.polls).take MAX_EVENTS).length = 0 := by rw [hcontra]; rfl
    rw [List.length_take] at hlen
    have hpos : 0 < (oracle t.polls).length := List.length_pos.mpr hor
    have h64 : MAX_EVENTS = 64 := rfl
    omega
  rw [mio_poll_expand oracle t h]
  show ¬ (((oracle t.polls).take MAX_EVENTS).foldl waker_wake t).que.size = 0
  exact foldl_wake_size_pos _ t hne hz hcap

theorem drainFuel_counts_le (beh : Nat → Nat → FutureState × Int) :
    ∀ (k : Nat) (s : ExecSt) (g : Nat), s.counts g ≤ (drainFuel beh k s).counts g := by
  intro k
  induction k with
  | zero => intro s g; exact Nat.le_refl _
  | succ k ih =>
    intro s g
    unfold drainFuel
    cases hp : pop s.que with
    | none => exact Nat.le_refl _
    | some r =>
      refine Nat.le_trans ?_ (ih (execProgress beh s r.1 r.2) g)
      rw [execProgress_counts]
      split <;> omega

theorem drainFuel_size_zero (beh : Nat → Nat → FutureState × Int) :
    ∀ (k : Nat) (s : ExecSt), s.que.size = k →
      (drainFuel beh k s).que.size = 0 ∧
      (drainFuel beh k s).que.max_size = s.que.max_size := by
  intro k
  induction k with
  | zero => intro s h; exact ⟨h, rfl⟩
  | succ k ih =>
    intro s h
    have hpop : pop s.que = some (s.que.futs s.que.front,
        { s.que with front := (s.que.front + 1) % s.que.max_size,
                     size := s.que.size - 1 }) := by
      unfold pop
      rw [if_neg (by simp [isEmpty, h])]
    unfold drainFuel
    rw [hpop]
    have hsz : (execProgress beh s (s.que.futs s.que.front)
        { s.que with front := (s.que.front + 1) % s.que.max_size,
                     size := s.que.size - 1 }).que.size = k := by
      rw [execProgress_que]
      show s.que.size - 1 = k
      omega
    obtain ⟨z1, z2⟩ := ih _ hsz
    exact ⟨z1, z2.trans rfl⟩

theorem drainFuel_mem (beh : Nat → Nat → FutureState × Int) :
    ∀ (k : Nat) (s : ExecSt) (g : Nat), s.que.Inv → s.que.size = k →
      g ∈ s.que.toList → s.counts g + 1 ≤ (drainFuel beh k s).counts g := by
  intro k
  induction k with
  | zero =>
    intro s g _ hsz hmem
    exfalso
    have hlen := toList_length s.que
    rw [hsz] at hlen
    rw [List.eq_nil_of_length_eq_zero hlen] at hmem
    exact List.not_mem_nil g hmem
  | succ k ih =>
    intro s g hinv hsz hmem
    have hne : s.que.size ≠ 0 := by omega
    obtain ⟨q', hpop, htl, hinv', hms', hsz'⟩ := pop_some s.que hinv hne
    unfold drainFuel
    rw [hpop]
    by_cases hg : g = s.que.toList.headI
    · refine Nat.le_trans ?_
        (drainFuel_counts_le beh k (execProgress beh s s.que.toList.headI q') g)
      rw [execProgress_counts, if_pos hg]
    · have hnil : s.que.toList ≠ [] := by
        intro hnil
        apply hne
        rw [← toList_length, hnil]
        rfl
      obtain ⟨x, xs, hx⟩ := List.exists_cons_of_ne_nil hnil
      have hgx : g ∈ q'.toList := by
        rw [htl, hx, List.tail_cons]
        have hmem' : g ∈ x :: xs := hx ▸ hmem
        have hgx' : ¬ g = x := by
          intro hgx'
          apply hg
          rw [hx, hgx']
          rfl
        exact List.mem_of_ne_of_mem hgx' hmem'
      have hih := ih (execProgress beh s s.que.toList.headI q') g
        (by rw [execProgress_que]; exact hinv')
        (by rw [execProgress_que]; omega)
        (by rw [execProgress_que]; exact hgx)
      refine Nat.le_trans ?_ hih
      rw [execProgress_counts, if_neg hg]

theorem runFuel_counts_le (beh : Nat → Nat → FutureState × Int)
    (oracle : Nat → List Nat) :
    ∀ (fuel : Nat) (s final : ExecSt),
      runFuel beh oracle fuel s = some final → ∀ g, s.counts g ≤ final.counts g := by
  intro fuel
  induction fuel with
  | zero =>
    intro s final h
    exact absurd h (by simp [runFuel])
  | succ n ih =>
    intro s final h g
    unfold runFuel at h
    by_cases he : isEmpty s.que = true
    · rw [if_pos he] at h
      injection h with h
      rw [← h]
    · rw [if_neg he] at h
      have h1 := drainFuel_counts_le beh s.que.size s g
      have h2 := mio_poll_counts oracle (drain beh s)
      have h3 := ih _ final h g
      show s.counts g ≤ final.counts g
      have h4 : (mio_poll oracle (drain beh s)).counts g = (drain beh s).counts g := by
        rw [h2]
      have h5 : (drain beh s).counts g = (drainFuel beh s.que.size s).counts g := rfl
      omega

theorem runFuel_mem (beh : Nat → Nat → FutureState × Int) (oracle : Nat → List Nat)
    (fuel : Nat) (s final : ExecSt) (g : Nat)
    (hrun : runFuel beh oracle fuel s = some final) (hinv : s.que.Inv)
    (hmem : g ∈ s.que.toList) :
    s.counts g + 1 ≤ final.counts g := by
  cases fuel with
  | zero => exact absurd hrun (by simp [runFuel])
  | succ n =>
    unfold runFuel at hrun
    by_cases he : isEmpty s.que = true
    · exfalso
      have hz : s.que.size = 0 := by simpa [isEmpty] using he
      have hlen := toList_length s.que
      rw [hz] at hlen
      rw [List.eq_nil_of_length_eq_zero hlen] at hmem
      exact List.not_mem_nil g hmem
    · rw [if_neg he] at hrun
      have h1 := drainFuel_mem beh s.que.size s g hinv rfl hmem
      have h2 := mio_poll_counts oracle (drain beh s)
      have h3 := runFuel_counts_le beh oracle n _ final hrun g
      have h4 : (mio_poll oracle (drain beh s)).counts g = (drain beh s).counts g := by
        rw [h2]
      have h5 : (drain beh s).counts g = (drainFuel beh s.que.size s).counts g := rfl
      show s.counts g + 1 ≤ final.counts g
      omega

theorem runFuel_registered_zero (beh : Nat → Nat → FutureState × Int)
    (oracle : Nat → List Nat) :
    ∀ (fuel : Nat) (s final : ExecSt),
      1 ≤ s.que.max_size → (∀ k, oracle k ≠ []) →
      (s.que.size ≠ 0 ∨ s.mio.registered_count = 0) →
      runFuel beh oracle fuel s = some final →
      final.mio.registered_count = 0 := by
  intro fuel
  induction fuel with
  | zero =>
    intro s final _ _ _ h
    exact absurd h (by simp [runFuel])
  | succ n ih =>
    intro s final hcap hor hstart h
    unfold runFuel at h
    by_cases he : isEmpty s.que = true
    · rw [if_pos he] at h
      injection h with h
      subst h
      rcases hstart with hs | hs
      · exact absurd (by simpa [isEmpty] using he) hs
      · exact hs
    · rw [if_neg he] at h
      obtain ⟨hz, hms⟩ := drainFuel_size_zero beh s.que.size s rfl
      have hzd : (drain beh s).que.size = 0 := hz
      have hmsd : (drain beh s).que.max_size = s.que.max_size := hms
      by_cases hr : (drain beh s).mio.registered_count = 0
      · have hpoll : mio_poll oracle (drain beh s) = drain beh s :=
          mio_poll_id oracle _ hr
        refine ih (mio_poll oracle (drain beh s)) final ?_ hor ?_ h
        · rw [hpoll, hmsd]
          exact hcap
        · right
          rw [hpoll]
          exact hr
      · refine ih (mio_poll oracle (drain beh s)) final ?_ hor ?_ h
        · rw [mio_poll_max_size, hmsd]
          exact hcap
        · left
          exact mio_poll_nonempty oracle (drain beh s) (by rw [hmsd]; exact hcap)
            (hor _) hr hzd

/-- C9 amended: `mio_poll` returns immediately leaving the state unchanged
when the registration count is zero; when it is nonzero the kernel batch
(nonempty, since `epoll_wait` blocks until an event fires) is walked and
each event's cookie future is woken — i.e. pushed, which silently drops
when the ready queue is full — so a poll on a drained (empty) queue with a
positive capacity always leaves the queue nonempty; consequently, whenever
`executor_run` returns, the registration count is zero. -/
theorem executor_run_registered_spec (beh : Nat → Nat → FutureState × Int)
    (oracle : Nat → List Nat) (fuel : Nat) (s final : ExecSt)
    (hcap : 1 ≤ s.que.max_size) (hor : ∀ k, oracle k ≠ [])
    (hstart : s.que.size ≠ 0 ∨ s.mio.registered_count = 0)
    (hrun : runFuel beh oracle fuel s = some final) :
    final.mio.registered_count = 0 ∧
    (∀ t : ExecSt, t.mio.registered_count = 0 → mio_poll oracle t = t) ∧
    (∀ t : ExecSt, ¬ t.mio.registered_count = 0 →
      mio_poll oracle t
        = { ((oracle t.polls).take MAX_EVENTS).foldl waker_wake t with
            polls := t.polls + 1 }) ∧
    (∀ t : ExecSt, ¬ t.mio.registered_count = 0 → 1 ≤ t.que.max_size →
      t.que.size = 0 → (mio_poll oracle t).que.size ≠ 0) :=
  ⟨runFuel_registered_zero beh oracle fuel s final hcap hor hstart hrun,
    fun t ht => mio_poll_id oracle t ht,
    fun t ht => mio_poll_expand oracle t ht,
    fun t ht htc htz => mio_poll_nonempty oracle t htc (hor t.polls) ht htz⟩

/-- The behaviour in which every future completes on each progress call
without touching the reactor. -/
def behComplete : Nat → Nat → FutureState × Int := fun _ _ => (.completed, 0)

/-- An event oracle that never delivers events (never consulted when
nothing is registered). -/
def oracleEmpty : Nat → List Nat := fun _ => []

/-- An event oracle delivering one event for future 3 at every poll. -/
def oracleOne : Nat → List Nat := fun _ => [3]

/-- A freshly created executor with ready-queue capacity 1. -/
def execInit : ExecSt :=
  { que := futque_create 1, mio := { registered_count := 0 },
    counts := fun _ => 0, is_active := fun _ => false, polls := 0 }

/-- C9 counterexample: with capacity 1 and two events in one poll batch,
only the first event's future is enqueued; the second is dropped by the
full-queue push, refuting "enqueues a future for each event". -/
theorem poll_event_dropped :
    (mio_poll (fun _ => [5, 6])
        { execInit with mio := { registered_count := 1 } }).que.toList = [5] ∧
    ¬ 6 ∈ (mio_poll (fun _ => [5, 6])
        { execInit with mio := { registered_count := 1 } }).que.toList := by
  decide

/-- Witness for C9's amended theorem: running one spawned, immediately
completing future to quiescence returns with a zero registration count. -/
theorem executor_run_registered_witness :
    (1 ≤ (executor_spawn execInit 1).que.max_size ∧
      (executor_spawn execInit 1).que.size ≠ 0) ∧
    (runFuel behComplete oracleOne 2 (executor_spawn execInit 1)).map
      (fun t => t.mio.registered_count) = some 0 := by
  refine ⟨⟨by decide, by decide⟩, ?_⟩
  cases hr : runFuel behComplete oracleOne 2 (executor_spawn execInit 1) with
  | none =>
    have hs : (runFuel behComplete oracleOne 2 (executor_spawn execInit 1)).isSome
        = true := by decide
    rw [hr] at hs
    exact Bool.noConfusion hs
  | some final =>
    have h0 := (executor_run_registered_spec behComplete oracleOne 2
      (executor_spawn execInit 1) final (by decide) (fun _ => List.cons_ne_nil 3 [])
      (Or.inl (by decide)) hr).1
    simp [h0]

/-- C2 counterexample: with capacity 1, spawning future 1 and then future
2 silently drops future 2 (`push` on a full queue is a no-op), yet
`executor_run` still returns; future 2 is never progressed. -/
theorem spawn_dropped_never_progressed :
    (runFuel behComplete oracleEmpty 3
        (executor_spawn (executor_spawn execInit 1) 2)).map
      (fun t => (t.counts 1, t.counts 2)) = some (1, 0) := by
  decide

/-- C2 amended: a future whose spawn found room in the ready queue (the
queue was not full, so the push actually enqueued it) is progressed at
least once before any return of `executor_run`. -/
theorem executor_spawned_progressed (beh : Nat → Nat → FutureState × Int)
    (oracle : Nat → List Nat) (fuel : Nat) (s : ExecSt) (fut : Nat)
    (hinv : s.que.Inv) (hroom : s.que.size < s.que.max_size) (final : ExecSt)
    (hrun : runFuel beh oracle fuel (executor_spawn s fut) = some final) :
    s.counts fut + 1 ≤ final.counts fut := by
  obtain ⟨htl, hinv'⟩ := push_toList s.que fut hinv (Nat.ne_of_lt hroom)
  have hmem : fut ∈ (executor_spawn s fut).que.toList := by
    show fut ∈ (push s.que fut).toList
    rw [htl]
    exact List.mem_append_right _ (List.mem_singleton_self fut)
  have hq : (executor_spawn s fut).que.Inv := hinv'
  have hcounts : (executor_spawn s fut).counts = s.counts := rfl
  have := runFuel_mem beh oracle fuel (executor_spawn s fut) final fut hrun hq hmem
  rw [hcounts] at this
  exact this

/-- Witness for C2's amended theorem: spawning future 4 into an empty
capacity-1 executor and running it progresses it at least once before the
run returns. -/
theorem executor_spawned_progressed_witness :
    ((futque_create 1).Inv ∧ execInit.que.size < execInit.que.max_size) ∧
    (runFuel behComplete oracleEmpty 2 (executor_spawn execInit 4)).elim False
      (fun t => execInit.counts 4 + 1 ≤ t.counts 4) := by
  refine ⟨⟨futque_create_inv 1 (by decide), by decide⟩, ?_⟩
  cases hr : runFuel behComplete oracleEmpty 2 (executor_spawn execInit 4) with
  | none =>
    have hs : (runFuel behComplete oracleEmpty 2 (executor_spawn execInit 4)).isSome
        = true := by decide
    rw [hr] at hs
    exact Bool.noConfusion hs
  | some final =>
    simp only [Option.elim]
    exact executor_spawned_progressed behComplete oracleEmpty 2 execInit 4
      (futque_create_inv 1 (by decide)) (by decide) final hr

/-- C10: `mio_register` either returns 0 and increments the registration
counter by exactly one, or returns -1 (kernel `epoll_ctl` failure) and
leaves the reactor state — hence `mio_poll`'s blocking test — unchanged;
`mio_unregister` likewise with a decrement. -/
theorem mio_register_unregister_atomic (m : Mio) (fd : Int) (events : Nat)
    (wakerFut : Nat) (kernelOk : Bool) :
    (((mio_register m fd events wakerFut kernelOk).2 = 0 ∧
        (mio_register m fd events wakerFut kernelOk).1.registered_count
          = m.registered_count + 1) ∨
      ((mio_register m fd events wakerFut kernelOk).2 = -1 ∧
        (mio_register m fd events wakerFut kernelOk).1 = m ∧
        mio_poll_blocks (mio_register m fd events wakerFut kernelOk).1
          = mio_poll_blocks m)) ∧
    (((mio_unregister m fd kernelOk).2 = 0 ∧
        (mio_unregister m fd kernelOk).1.registered_count
          = m.registered_count - 1) ∨
      ((mio_unregister m fd kernelOk).2 = -1 ∧
        (mio_unregister m fd kernelOk).1 = m ∧
        mio_poll_blocks (mio_unregister m fd kernelOk).1 = mio_poll_blocks m)) := by
  cases kernelOk <;> simp [mio_register, mio_unregister]

end AsyncExec
